import Mathlib

/-!
# go-gocd: `PipelineGroupsService.List`

A shallow embedding of `gocd/pipelinegroups.go` and the properties of its one
operation, `PipelineGroupsService.List`.

Conventions of the embedding.

* A Go pointer `*T` is `Option T` (`nil` is `none`); a Go slice `[]T` is the
  sequence of its elements; a Go `error` is `Option Error`.
* The two methods of the parent client that `List` calls, `getAPIVersion` and
  `getAction`, are declared in sibling files.  Their behaviour is a parameter:
  an arbitrary pair of state-transforming functions over an arbitrary state
  `σ` (server, network, client).  Every invocation is appended to a
  chronological call log, so that which calls happen, with which arguments and
  in which order, is observable.
* Go returns several values at once; they are a tuple here.
-/

set_option linter.unusedVariables false

namespace gocd

/-! ## Data model -/

/-- A Go slice `[]α`, by its sequence of elements. -/
abbrev Slice (α : Type) : Type := List α

/-- Modelled from the spec: `context.Context`, the per-request
cancellation/deadline context.  `List` only passes it on to the two
collaborators. -/
structure Context where
  cancelled : Bool
  deadline : Option Nat
  deriving DecidableEq, Repr

/-- Modelled from the spec: `Pipeline` is declared by a sibling resource client;
here it is an opaque reference, identified by a name. -/
structure Pipeline where
  Name : String
  deriving DecidableEq, Repr

/-- `type PipelineGroup struct { Name string; Pipelines []*Pipeline }`. -/
structure PipelineGroup where
  Name : String
  Pipelines : Slice (Option Pipeline)
  deriving DecidableEq, Repr

/-- `type PipelineGroups []*PipelineGroup`. -/
abbrev PipelineGroups : Type := Slice (Option PipelineGroup)

/-- Modelled from the spec: `APIResponse`, the transport-metadata envelope
(status code, raw headers) returned alongside every dispatch. -/
structure APIResponse where
  StatusCode : Nat
  Header : Slice (String × String)
  deriving DecidableEq, Repr

/-- Modelled from the spec: the error taxonomy of section 7.  The Go code only
sees the interface `error`; the kinds are those the collaborators can produce. -/
inductive Error where
  | transport (msg : String)
  | unsupportedResource (path : String)
  | httpStatus (code : Nat) (body : String)
  | decode (msg : String)
  deriving DecidableEq, Repr

/-- `APIClientRequest`, with the three fields `List` sets.  `APIVersion` is the
value `getAPIVersion` returned; `ResponseBody` (an `interface{}` in Go) holds
the only dynamic type this file stores in it, a `[]*PipelineGroup`. -/
structure APIClientRequest where
  Path : String
  APIVersion : String
  ResponseBody : Slice (Option PipelineGroup)
  deriving DecidableEq, Repr

/-! ## Collaborators and the call log -/

/-- What `getAction` returns: the decoded value, the envelope, the error. -/
abbrev ActionResult : Type :=
  Slice (Option PipelineGroup) × Option APIResponse × Option Error

/-- One invocation of a collaborator, with its arguments. -/
inductive Call where
  | getAPIVersion (ctx : Context) (path : String)
  | getAction (ctx : Context) (req : APIClientRequest)
  deriving DecidableEq, Repr

/-- The world a call runs in: the state of everything behind the client, and
the log of collaborator invocations so far, oldest first. -/
structure World (σ : Type) where
  state : σ
  calls : Slice Call

/-- The parent client: the behaviour of the version resolver and of the action
dispatcher, each an arbitrary function of its arguments and of the state. -/
structure Client (σ : Type) where
  resolver : Context → String → σ → (String × Option Error) × σ
  dispatcher : Context → APIClientRequest → σ → ActionResult × σ

/-- `client.getAPIVersion(ctx, path)`: one resolver invocation, logged. -/
def Client.getAPIVersion {σ : Type} (c : Client σ) (ctx : Context) (path : String)
    (w : World σ) : (String × Option Error) × World σ :=
  let r := c.resolver ctx path w.state
  (r.1, { state := r.2, calls := w.calls ++ [Call.getAPIVersion ctx path] })

/-- `client.getAction(ctx, req)`: one dispatcher invocation, logged. -/
def Client.getAction {σ : Type} (c : Client σ) (ctx : Context) (req : APIClientRequest)
    (w : World σ) : ActionResult × World σ :=
  let r := c.dispatcher ctx req w.state
  (r.1, { state := r.2, calls := w.calls ++ [Call.getAction ctx req] })

/-- `type PipelineGroupsService service`, a service holding its parent client. -/
structure PipelineGroupsService (σ : Type) where
  client : Client σ

/-- What `List` returns: `(*PipelineGroups, *APIResponse, error)`. -/
abbrev ListResult : Type :=
  Option PipelineGroups × Option APIResponse × Option Error

/-! ## The operation -/

/-- `func (pgs *PipelineGroupsService) List(ctx, name)`.

The resolver is asked for the version of `"admin/pipeline_groups"`; on an error
the function returns `nil, nil, err`.  Otherwise it dispatches a request for
`"admin/pipeline_groups" + name` with the resolved version and the empty slice
`pg`, binds the envelope and the error to the locals `resp` and `err`, and ends
in a `return` without operands.  The results of the function are unnamed and
nothing is assigned to them on that path, so what the dispatcher produced does
not reach the caller: each result is the zero value of its type,
`nil, nil, nil`. -/
def PipelineGroupsService.List {σ : Type} (pgs : PipelineGroupsService σ) (ctx : Context)
    (name : String) (w : World σ) : ListResult × World σ :=
  match pgs.client.getAPIVersion ctx "admin/pipeline_groups" w with
  | ((apiVersion, err), w1) =>
    match err with
    | some e => ((none, none, some e), w1)
    | none =>
      let pg : Slice (Option PipelineGroup) := []
      match pgs.client.getAction ctx
          { Path := "admin/pipeline_groups" ++ name
            APIVersion := apiVersion
            ResponseBody := pg } w1 with
      | ((_, resp, err), w2) => ((none, none, none), w2)

/-! ## Observing the call log -/

/-- Whether a logged call is a version resolution. -/
def Call.isGetAPIVersion : Call → Bool
  | Call.getAPIVersion _ _ => true
  | Call.getAction _ _ => false

/-- Whether a logged call is a dispatch. -/
def Call.isGetAction : Call → Bool
  | Call.getAPIVersion _ _ => false
  | Call.getAction _ _ => true

/-- The resource paths the resolver was asked about, in order. -/
def resolved : Slice Call → Slice String
  | [] => []
  | Call.getAPIVersion _ path :: cs => path :: resolved cs
  | Call.getAction _ _ :: cs => resolved cs

/-- The requests handed to the dispatcher, in order. -/
def dispatched : Slice Call → Slice APIClientRequest
  | [] => []
  | Call.getAPIVersion _ _ :: cs => dispatched cs
  | Call.getAction _ req :: cs => req :: dispatched cs

/-- The calls logged on the way from world `w` to world `w2`. -/
def callsSince {σ : Type} (w w2 : World σ) : Slice Call :=
  w2.calls.drop w.calls.length

/-- A client whose collaborators answer the same whatever the state is: the
resolver and the dispatcher behave as an unchanged fixture. -/
def Client.Fixed {σ : Type} (c : Client σ) : Prop :=
  (∀ ctx path s s2, (c.resolver ctx path s).1 = (c.resolver ctx path s2).1) ∧
  (∀ ctx req s s2, (c.dispatcher ctx req s).1 = (c.dispatcher ctx req s2).1)

/-! ## Fixtures -/

/-- A live context without deadline. -/
def background : Context := { cancelled := false, deadline := none }

/-- The version the fixture resolver answers with. -/
def fixtureVersion : String := "application/vnd.go.cd.v1+json"

/-- The server fixture of the spec: the groups `default` and `build`. -/
def fixtureGroups : Slice (Option PipelineGroup) :=
  [ some { Name := "default", Pipelines := [some { Name := "deploy" }] },
    some { Name := "build", Pipelines := [some { Name := "compile" }, some { Name := "test" }] } ]

/-- A resolver that knows every path; the state counts the round trips. -/
def fixtureResolver : Context → String → Nat → (String × Option Error) × Nat :=
  fun _ _ n => ((fixtureVersion, none), n + 1)

/-- A resolver for a server that does not recognise the path. -/
def unsupportedResolver : Context → String → Nat → (String × Option Error) × Nat :=
  fun _ path n => (("", some (Error.unsupportedResource path)), n + 1)

/-- A healthy server: status 200 and the two fixture groups. -/
def okClient : Client Nat where
  resolver := fixtureResolver
  dispatcher := fun _ _ n =>
    ((fixtureGroups, some { StatusCode := 200, Header := [] }, none), n + 1)

/-- A server that answers 404 for the pipeline-groups path. -/
def notFoundClient : Client Nat where
  resolver := fixtureResolver
  dispatcher := fun _ _ n =>
    (([], some { StatusCode := 404, Header := [] }, some (Error.httpStatus 404 "")), n + 1)

/-- A server that answers 200 with a body that is not JSON. -/
def malformedClient : Client Nat where
  resolver := fixtureResolver
  dispatcher := fun _ _ n =>
    (([], some { StatusCode := 200, Header := [] }, some (Error.decode "invalid character")),
      n + 1)

/-- A server that cannot be reached once the version is known. -/
def unreachableClient : Client Nat where
  resolver := fixtureResolver
  dispatcher := fun _ _ n => (([], none, some (Error.transport "connection refused")), n + 1)

/-- A server whose resolver rejects the path. -/
def unsupportedClient : Client Nat where
  resolver := unsupportedResolver
  dispatcher := fun _ _ n =>
    ((fixtureGroups, some { StatusCode := 200, Header := [] }, none), n + 1)

/-- A fresh world: nothing exchanged, nothing logged. -/
def freshWorld : World Nat := { state := 0, calls := [] }

/-! ## Unfolding lemmas -/

theorem callsSince_append {σ : Type} (w w2 : World σ) (cs : Slice Call)
    (h : w2.calls = w.calls ++ cs) : callsSince w w2 = cs := by
  simp [callsSince, h]

theorem List_eq_of_resolver_error {σ : Type} (pgs : PipelineGroupsService σ) (ctx : Context)
    (name : String) (w : World σ) (e : Error)
    (h : (pgs.client.resolver ctx "admin/pipeline_groups" w.state).1.2 = some e) :
    pgs.List ctx name w =
      ((none, none, some e),
        { state := (pgs.client.resolver ctx "admin/pipeline_groups" w.state).2
          calls := w.calls ++ [Call.getAPIVersion ctx "admin/pipeline_groups"] }) := by
  rcases hr : pgs.client.resolver ctx "admin/pipeline_groups" w.state with ⟨⟨v, err⟩, s1⟩
  rw [hr] at h
  simp only at h
  subst h
  simp [PipelineGroupsService.List, Client.getAPIVersion, hr]

theorem List_eq_of_resolver_ok {σ : Type} (pgs : PipelineGroupsService σ) (ctx : Context)
    (name : String) (w : World σ)
    (h : (pgs.client.resolver ctx "admin/pipeline_groups" w.state).1.2 = none) :
    pgs.List ctx name w =
      ((none, none, none),
        { state := (pgs.client.dispatcher ctx
              { Path := "admin/pipeline_groups" ++ name
                APIVersion := (pgs.client.resolver ctx "admin/pipeline_groups" w.state).1.1
                ResponseBody := [] }
              (pgs.client.resolver ctx "admin/pipeline_groups" w.state).2).2
          calls := w.calls ++
            [ Call.getAPIVersion ctx "admin/pipeline_groups",
              Call.getAction ctx
                { Path := "admin/pipeline_groups" ++ name
                  APIVersion := (pgs.client.resolver ctx "admin/pipeline_groups" w.state).1.1
                  ResponseBody := [] } ] }) := by
  rcases hr : pgs.client.resolver ctx "admin/pipeline_groups" w.state with ⟨⟨v, err⟩, s1⟩
  rw [hr] at h
  simp only at h
  subst h
  simp [PipelineGroupsService.List, Client.getAPIVersion, Client.getAction, hr]

theorem append_eq_self_iff (base name : String) : base ++ name = base ↔ name = "" := by
  constructor
  · intro h
    have h2 := congrArg String.data h
    rw [String.data_append] at h2
    have h3 : name.data = [] := by simpa using h2
    exact String.ext h3
  · rintro rfl
    simp

theorem List_collection_nil {σ : Type} (pgs : PipelineGroupsService σ) (ctx : Context)
    (name : String) (w : World σ) : (pgs.List ctx name w).1.1 = none := by
  cases h : (pgs.client.resolver ctx "admin/pipeline_groups" w.state).1.2 with
  | none => rw [List_eq_of_resolver_ok pgs ctx name w h]
  | some e => rw [List_eq_of_resolver_error pgs ctx name w e h]

/-! ## The claims -/

/-- C1, evaluated on the code.  Against the healthy fixture and with the empty
name, the resolver succeeds and the dispatcher reports the two groups `default`
and `build` with a nil error, yet `List` returns a nil collection (and a nil
envelope and a nil error) instead of the two groups. -/
theorem List_ok_fixture_returns_nil :
    (okClient.resolver background "admin/pipeline_groups" 0).1 = (fixtureVersion, none) ∧
    (okClient.dispatcher background
        { Path := "admin/pipeline_groups", APIVersion := fixtureVersion, ResponseBody := [] }
        1).1 = (fixtureGroups, some { StatusCode := 200, Header := [] }, none) ∧
    ((PipelineGroupsService.mk okClient).List background "" freshWorld).1
      = (none, none, none) ∧
    ((PipelineGroupsService.mk okClient).List background "" freshWorld).1.1
      ≠ some fixtureGroups := by
  refine ⟨rfl, rfl, rfl, ?_⟩
  decide

/-- C2.  If the resolver fails with error `e` for `"admin/pipeline_groups"`,
`List` returns a nil collection, a nil envelope and `e` itself, and the only
call it makes is that one resolution: the dispatcher is not invoked. -/
theorem List_resolver_error {σ : Type} (pgs : PipelineGroupsService σ) (ctx : Context)
    (name : String) (w : World σ) (e : Error)
    (h : (pgs.client.resolver ctx "admin/pipeline_groups" w.state).1.2 = some e) :
    (pgs.List ctx name w).1 = (none, none, some e) ∧
    callsSince w (pgs.List ctx name w).2
      = [Call.getAPIVersion ctx "admin/pipeline_groups"] ∧
    dispatched (callsSince w (pgs.List ctx name w).2) = [] ∧
    (callsSince w (pgs.List ctx name w).2).countP Call.isGetAction = 0 ∧
    (pgs.List ctx name w).2.state
      = (pgs.client.resolver ctx "admin/pipeline_groups" w.state).2 := by
  have hcs : callsSince w (pgs.List ctx name w).2
      = [Call.getAPIVersion ctx "admin/pipeline_groups"] :=
    callsSince_append _ _ _ (by rw [List_eq_of_resolver_error pgs ctx name w e h])
  refine ⟨?_, hcs, ?_, ?_, ?_⟩
  · rw [List_eq_of_resolver_error pgs ctx name w e h]
  · rw [hcs]; rfl
  · rw [hcs]; rfl
  · rw [List_eq_of_resolver_error pgs ctx name w e h]

theorem List_resolver_error_witness :
    (unsupportedClient.resolver background "admin/pipeline_groups" freshWorld.state).1.2
      = some (Error.unsupportedResource "admin/pipeline_groups") ∧
    ((PipelineGroupsService.mk unsupportedClient).List background "default" freshWorld).1
      = (none, none, some (Error.unsupportedResource "admin/pipeline_groups")) ∧
    dispatched (callsSince freshWorld
      ((PipelineGroupsService.mk unsupportedClient).List background "default" freshWorld).2)
      = [] :=
  ⟨rfl,
    (List_resolver_error ⟨unsupportedClient⟩ background "default" freshWorld
      (Error.unsupportedResource "admin/pipeline_groups") rfl).1,
    (List_resolver_error ⟨unsupportedClient⟩ background "default" freshWorld
      (Error.unsupportedResource "admin/pipeline_groups") rfl).2.2.1⟩

/-- C3.  When version resolution succeeds, `List` hands exactly one request to
the dispatcher and its path is `"admin/pipeline_groups"` followed by `name`
verbatim; for the name `default` that is `admin/pipeline_groupsdefault`, and for
the empty name it is `admin/pipeline_groups`. -/
theorem List_request_path {σ : Type} (pgs : PipelineGroupsService σ) (ctx : Context)
    (name : String) (w : World σ)
    (h : (pgs.client.resolver ctx "admin/pipeline_groups" w.state).1.2 = none) :
    (dispatched (callsSince w (pgs.List ctx name w).2)).map APIClientRequest.Path
      = ["admin/pipeline_groups" ++ name] ∧
    (name = "default" →
      (dispatched (callsSince w (pgs.List ctx name w).2)).map APIClientRequest.Path
        = ["admin/pipeline_groupsdefault"]) ∧
    (name = "" →
      (dispatched (callsSince w (pgs.List ctx name w).2)).map APIClientRequest.Path
        = ["admin/pipeline_groups"]) := by
  have hcs := callsSince_append w (pgs.List ctx name w).2 _
    (by rw [List_eq_of_resolver_ok pgs ctx name w h])
  have hp : (dispatched (callsSince w (pgs.List ctx name w).2)).map APIClientRequest.Path
      = ["admin/pipeline_groups" ++ name] := by
    rw [hcs]; rfl
  refine ⟨hp, ?_, ?_⟩
  · intro hn
    rw [hp, hn]; rfl
  · intro hn
    rw [hp, hn]; rfl

theorem List_request_path_witness :
    (dispatched (callsSince freshWorld
      ((PipelineGroupsService.mk okClient).List background "default" freshWorld).2)).map
        APIClientRequest.Path = ["admin/pipeline_groupsdefault"] ∧
    (dispatched (callsSince freshWorld
      ((PipelineGroupsService.mk okClient).List background "" freshWorld).2)).map
        APIClientRequest.Path = ["admin/pipeline_groups"] :=
  ⟨(List_request_path ⟨okClient⟩ background "default" freshWorld rfl).2.1 rfl,
    (List_request_path ⟨okClient⟩ background "" freshWorld rfl).2.2 rfl⟩

/-- C4, evaluated on the code.  Against a server that cannot be reached once the
version is known, the resolver succeeds and the dispatcher returns a transport
error, yet the error `List` returns is nil: the dispatcher's error is dropped. -/
theorem List_unreachable_fixture_drops_error :
    (unreachableClient.resolver background "admin/pipeline_groups" 0).1.2 = none ∧
    (unreachableClient.dispatcher background
        { Path := "admin/pipeline_groups", APIVersion := fixtureVersion, ResponseBody := [] }
        1).1.2.2 = some (Error.transport "connection refused") ∧
    dispatched (callsSince freshWorld
      ((PipelineGroupsService.mk unreachableClient).List background "" freshWorld).2)
      = [{ Path := "admin/pipeline_groups", APIVersion := fixtureVersion, ResponseBody := [] }] ∧
    ((PipelineGroupsService.mk unreachableClient).List background "" freshWorld).1.2.2
      = none := by
  refine ⟨rfl, rfl, ?_, rfl⟩
  decide

/-- C5, evaluated on the code.  Against a server that answers 200 with a body
that is not JSON, the dispatcher is invoked and returns the envelope with status
200 together with a decode error, yet the envelope `List` returns is nil; the
same holds against the healthy fixture, where the dispatch succeeds. -/
theorem List_malformed_fixture_drops_envelope :
    (malformedClient.dispatcher background
        { Path := "admin/pipeline_groups", APIVersion := fixtureVersion, ResponseBody := [] }
        1).1.2 = (some { StatusCode := 200, Header := [] },
          some (Error.decode "invalid character")) ∧
    dispatched (callsSince freshWorld
      ((PipelineGroupsService.mk malformedClient).List background "" freshWorld).2)
      = [{ Path := "admin/pipeline_groups", APIVersion := fixtureVersion, ResponseBody := [] }] ∧
    ((PipelineGroupsService.mk malformedClient).List background "" freshWorld).1.2.1
      = none ∧
    ((PipelineGroupsService.mk okClient).List background "" freshWorld).1.2.1 = none := by
  refine ⟨rfl, ?_, rfl, rfl⟩
  decide

/-- C6, evaluated on the code.  Against a server that answers 404 for the
pipeline-groups path, the dispatcher returns the HTTP status error carrying
404, and `List` returns an absent collection together with a nil error, not
that status error. -/
theorem List_not_found_fixture_returns_nil_error :
    (notFoundClient.dispatcher background
        { Path := "admin/pipeline_groups", APIVersion := fixtureVersion, ResponseBody := [] }
        1).1 = ([], some { StatusCode := 404, Header := [] },
          some (Error.httpStatus 404 "")) ∧
    ((PipelineGroupsService.mk notFoundClient).List background "" freshWorld).1
      = (none, none, none) ∧
    ((PipelineGroupsService.mk notFoundClient).List background "" freshWorld).1.2.2
      ≠ some (Error.httpStatus 404 "") := by
  refine ⟨rfl, rfl, ?_⟩
  decide

/-- C7.  `List` is deterministic: with a resolver and a dispatcher that answer
the same whatever happened before, two calls with the same name return the same
collection, envelope and error, whether they start from two arbitrary worlds or
the second call follows the first. -/
theorem List_deterministic {σ : Type} (pgs : PipelineGroupsService σ) (ctx : Context)
    (name : String) (w w2 : World σ) (hfix : pgs.client.Fixed) :
    (pgs.List ctx name w).1 = (pgs.List ctx name w2).1 ∧
    (pgs.List ctx name (pgs.List ctx name w).2).1 = (pgs.List ctx name w).1 := by
  have key : ∀ a b : World σ, (pgs.List ctx name a).1 = (pgs.List ctx name b).1 := by
    intro a b
    have hab := hfix.1 ctx "admin/pipeline_groups" a.state b.state
    cases ha : (pgs.client.resolver ctx "admin/pipeline_groups" a.state).1.2 with
    | none =>
      have hb : (pgs.client.resolver ctx "admin/pipeline_groups" b.state).1.2 = none := by
        rw [← hab]; exact ha
      rw [List_eq_of_resolver_ok pgs ctx name a ha, List_eq_of_resolver_ok pgs ctx name b hb]
    | some e =>
      have hb : (pgs.client.resolver ctx "admin/pipeline_groups" b.state).1.2 = some e := by
        rw [← hab]; exact ha
      rw [List_eq_of_resolver_error pgs ctx name a e ha,
        List_eq_of_resolver_error pgs ctx name b e hb]
  exact ⟨key w w2, key _ w⟩

theorem List_deterministic_witness :
    okClient.Fixed ∧
    ((PipelineGroupsService.mk okClient).List background "default"
        ((PipelineGroupsService.mk okClient).List background "default" freshWorld).2).1
      = ((PipelineGroupsService.mk okClient).List background "default" freshWorld).1 :=
  ⟨⟨fun _ _ _ _ => rfl, fun _ _ _ _ => rfl⟩,
    (List_deterministic ⟨okClient⟩ background "default" freshWorld freshWorld
      ⟨fun _ _ _ _ => rfl, fun _ _ _ _ => rfl⟩).2⟩

/-- C8.  When version resolution succeeds with version `v`, the one request
`List` hands to the dispatcher carries `APIVersion` exactly `v`, the value the
resolver returned for `"admin/pipeline_groups"`, and the empty pipeline-group
slice as `ResponseBody`. -/
theorem List_request_version_and_body {σ : Type} (pgs : PipelineGroupsService σ)
    (ctx : Context) (name : String) (w : World σ) (v : String)
    (h : (pgs.client.resolver ctx "admin/pipeline_groups" w.state).1 = (v, none)) :
    dispatched (callsSince w (pgs.List ctx name w).2)
      = [{ Path := "admin/pipeline_groups" ++ name, APIVersion := v, ResponseBody := [] }] ∧
    (dispatched (callsSince w (pgs.List ctx name w).2)).map APIClientRequest.APIVersion
      = [v] ∧
    (dispatched (callsSince w (pgs.List ctx name w).2)).map APIClientRequest.ResponseBody
      = [[]] := by
  have hok : (pgs.client.resolver ctx "admin/pipeline_groups" w.state).1.2 = none := by
    rw [h]
  have hv : (pgs.client.resolver ctx "admin/pipeline_groups" w.state).1.1 = v := by
    rw [h]
  have hcs := callsSince_append w (pgs.List ctx name w).2 _
    (by rw [List_eq_of_resolver_ok pgs ctx name w hok])
  rw [hcs, hv]
  exact ⟨rfl, rfl, rfl⟩

theorem List_request_version_and_body_witness :
    (okClient.resolver background "admin/pipeline_groups" freshWorld.state).1
      = (fixtureVersion, none) ∧
    dispatched (callsSince freshWorld
      ((PipelineGroupsService.mk okClient).List background "default" freshWorld).2)
      = [{ Path := "admin/pipeline_groupsdefault"
           APIVersion := "application/vnd.go.cd.v1+json"
           ResponseBody := [] }] :=
  ⟨rfl,
    (List_request_version_and_body ⟨okClient⟩ background "default" freshWorld
      fixtureVersion rfl).1⟩

/-- C9.  One call of `List` extends the call log by exactly one version
resolution, which comes first, followed by the dispatches it makes, of which
there is at most one; there is one exactly when the resolution succeeded, and
nothing else is called, so no call is repeated. -/
theorem List_call_sequence {σ : Type} (pgs : PipelineGroupsService σ) (ctx : Context)
    (name : String) (w : World σ) :
    (pgs.List ctx name w).2.calls = w.calls ++ callsSince w (pgs.List ctx name w).2 ∧
    callsSince w (pgs.List ctx name w).2
      = Call.getAPIVersion ctx "admin/pipeline_groups" ::
          (dispatched (callsSince w (pgs.List ctx name w).2)).map (Call.getAction ctx) ∧
    (callsSince w (pgs.List ctx name w).2).countP Call.isGetAPIVersion = 1 ∧
    (callsSince w (pgs.List ctx name w).2).countP Call.isGetAction ≤ 1 ∧
    ((callsSince w (pgs.List ctx name w).2).countP Call.isGetAction = 1 ↔
      (pgs.client.resolver ctx "admin/pipeline_groups" w.state).1.2 = none) ∧
    (callsSince w (pgs.List ctx name w).2).length
      = 1 + (callsSince w (pgs.List ctx name w).2).countP Call.isGetAction := by
  cases h : (pgs.client.resolver ctx "admin/pipeline_groups" w.state).1.2 with
  | none =>
    have hl := List_eq_of_resolver_ok pgs ctx name w h
    have hcs := callsSince_append w (pgs.List ctx name w).2 _ (by rw [hl])
    rw [hcs]
    refine ⟨by rw [hl], rfl, rfl, ?_, ?_, rfl⟩
    · exact Nat.le_of_eq rfl
    · exact ⟨fun _ => rfl, fun _ => rfl⟩
  | some e =>
    have hl := List_eq_of_resolver_error pgs ctx name w e h
    have hcs := callsSince_append w (pgs.List ctx name w).2 _ (by rw [hl])
    rw [hcs]
    refine ⟨by rw [hl], rfl, rfl, ?_, ?_, rfl⟩
    · exact Nat.zero_le 1
    · constructor
      · intro h0
        have h1 : (0 : Nat) = 1 := h0
        exact absurd h1 (by decide)
      · intro h0
        exact absurd h0 (by simp)

/-- C10.  Whatever the name, the resolver is asked about exactly
`"admin/pipeline_groups"`, while the request that is dispatched when the
resolution succeeds has the path `"admin/pipeline_groups" + name`; the two
paths are equal exactly when the name is empty. -/
theorem List_resolver_path {σ : Type} (pgs : PipelineGroupsService σ) (ctx : Context)
    (name : String) (w : World σ) :
    resolved (callsSince w (pgs.List ctx name w).2) = ["admin/pipeline_groups"] ∧
    (dispatched (callsSince w (pgs.List ctx name w).2)).map APIClientRequest.Path
      = (match (pgs.client.resolver ctx "admin/pipeline_groups" w.state).1.2 with
         | none => ["admin/pipeline_groups" ++ name]
         | some _ => []) ∧
    (∀ req ∈ dispatched (callsSince w (pgs.List ctx name w).2),
      ∀ path ∈ resolved (callsSince w (pgs.List ctx name w).2),
        (req.Path = path ↔ name = "")) := by
  cases h : (pgs.client.resolver ctx "admin/pipeline_groups" w.state).1.2 with
  | none =>
    have hl := List_eq_of_resolver_ok pgs ctx name w h
    have hcs := callsSince_append w (pgs.List ctx name w).2 _ (by rw [hl])
    rw [hcs]
    refine ⟨rfl, rfl, ?_⟩
    intro req hreq path hpath
    simp only [dispatched, resolved, List.mem_singleton] at hreq hpath
    subst hreq hpath
    exact append_eq_self_iff _ _
  | some e =>
    have hl := List_eq_of_resolver_error pgs ctx name w e h
    have hcs := callsSince_append w (pgs.List ctx name w).2 _ (by rw [hl])
    rw [hcs]
    refine ⟨rfl, rfl, ?_⟩
    intro req hreq
    simp [dispatched] at hreq

end gocd
